import Mathlib

/-!
Shallow embedding of the deepext training harness.

Python floats are modelled as exact rationals (for values produced by
arithmetic the program performs exactly) and real numbers (for values of
transcendental operations such as `math.pow` with fractional exponent and
`softmax`).  Fallible operations return `Option`/`Except`: a `none` or
`.error` models an uncaught Python exception propagating to the caller.
-/

namespace Deepext

/-- Model of Python's `math.pow` on real arguments: raises
`ValueError: math domain error` (modelled as `none`) exactly when the base is
negative and the exponent is not an integral value, or when the base is zero
and the exponent is negative (CPython maps `(±0)**negative` to `EDOM`);
otherwise returns the real power (`math.pow(0.0, 0.0)` is 1, as is
`Real.rpow 0 0`). Exponents arising in this program are float literals,
modelled as rationals, so integrality is decidable via the denominator. -/
noncomputable def mathPow (base expo : ℚ) : Option ℝ :=
  if (base < 0 ∧ expo.den ≠ 1) ∨ (base = 0 ∧ expo < 0) then none
  else some (Real.rpow (base : ℝ) (expo : ℝ))

/-- `deepext.utils.callbacks.LearningRateScheduler`: holds `max_epoch` and
`power` (default 0.9). -/
structure LearningRateScheduler where
  max_epoch : ℕ
  power : ℚ

/-- `LearningRateScheduler.__call__(epoch)`:
`math.pow((1 - epoch / max_epoch), power)`.  The division `epoch / max_epoch`
raises `ZeroDivisionError` (modelled as `none`) when `max_epoch = 0`. -/
noncomputable def LearningRateScheduler.call (s : LearningRateScheduler) (epoch : ℕ) : Option ℝ :=
  if s.max_epoch = 0 then none
  else mathPow (1 - (epoch : ℚ) / (s.max_epoch : ℚ)) s.power

/-- `deepext.utils.callbacks.WarmUpLRScheduler`: holds the warm-up learning
rate, the post-warm-up learning rate and the warm-up epoch threshold. -/
structure WarmUpLRScheduler where
  warmup_lr : ℚ
  lr : ℚ
  warmup_epochs : ℕ

/-- `WarmUpLRScheduler.__call__(epoch)`:
`warmup_lr if epoch < warmup_epochs else lr`. -/
def WarmUpLRScheduler.call (s : WarmUpLRScheduler) (epoch : ℕ) : ℚ :=
  if epoch < s.warmup_epochs then s.warmup_lr else s.lr

lemma lr_call_pos (m : ℕ) (p : ℚ) (e : ℕ) (hm : m ≠ 0) :
    LearningRateScheduler.call ⟨m, p⟩ e = mathPow (1 - (e : ℚ) / (m : ℚ)) p := by
  simp only [LearningRateScheduler.call, hm, if_false]

lemma base_nonneg {m e : ℕ} (hm : 0 < m) (he : e ≤ m) :
    (0 : ℚ) ≤ 1 - (e : ℚ) / (m : ℚ) := by
  have hQm : (0 : ℚ) < (m : ℚ) := by exact_mod_cast hm
  have : (e : ℚ) / (m : ℚ) ≤ 1 := by
    rw [div_le_one hQm]; exact_mod_cast he
  linarith

lemma mathPow_nonneg_defined {base expo : ℚ} (hb : 0 ≤ base) (he : 0 ≤ expo) :
    mathPow base expo = some (Real.rpow (base : ℝ) (expo : ℝ)) := by
  rw [mathPow, if_neg]
  rintro (⟨h1, _⟩ | ⟨_, h2⟩)
  · exact absurd h1 (not_lt.mpr hb)
  · exact absurd h2 (not_lt.mpr he)

/-- Claim C6: a `LearningRateScheduler` with positive `max_epoch` and
non-negative `power` returns `(1 - epoch/max_epoch)^power` for every epoch in
`[0, max_epoch]` (with a negative power, `math.pow` raises at
`epoch = max_epoch`, where the base is zero); in particular with
`max_epoch = 10` and `power = 1` the value at epoch 0 is 1 and the value at
epoch 10 is 0. -/
theorem lr_scheduler_spec (m : ℕ) (p : ℚ) (e : ℕ) (hm : 0 < m) (he : e ≤ m)
    (hp : 0 ≤ p) :
    LearningRateScheduler.call ⟨m, p⟩ e
      = some (Real.rpow ((1 : ℝ) - (e : ℝ) / (m : ℝ)) (p : ℝ)) ∧
    LearningRateScheduler.call ⟨10, 1⟩ 0 = some 1 ∧
    LearningRateScheduler.call ⟨10, 1⟩ 10 = some 0 := by
  refine ⟨?_, ?_, ?_⟩
  · rw [lr_call_pos m p e hm.ne', mathPow_nonneg_defined (base_nonneg hm he) hp]
    congr 1
    push_cast
    ring
  · rw [lr_call_pos 10 1 0 (by norm_num), mathPow, if_neg (by norm_num)]
    norm_num
  · rw [lr_call_pos 10 1 10 (by norm_num), mathPow, if_neg (by norm_num)]
    simp only [Option.some.injEq]
    rw [show ((1 - ((10 : ℕ) : ℚ) / ((10 : ℕ) : ℚ) : ℚ) : ℝ) = 0 by push_cast; norm_num,
      show (((1 : ℚ)) : ℝ) = 1 by norm_num]
    exact Real.rpow_one 0

/-- Claim C6 witness: instance at `max_epoch = 10`, `power = 1`, `epoch = 0`. -/
theorem lr_scheduler_spec_witness :
    LearningRateScheduler.call ⟨10, 1⟩ 0 = some 1 ∧
    LearningRateScheduler.call ⟨10, 1⟩ 10 = some 0 :=
  (lr_scheduler_spec 10 1 0 (by norm_num) (by norm_num) (by norm_num)).2

/-- Claim C7: a `WarmUpLRScheduler` returns `warmup_lr` below the threshold
and `lr` at or above it; in particular with `warmup_lr = 0.01`, `lr = 0.0001`,
`warmup_epochs = 10` the value at epoch 5 is 0.01 and at epoch 10 is 0.0001. -/
theorem warmup_scheduler_spec (w : WarmUpLRScheduler) (epoch : ℕ) :
    (epoch < w.warmup_epochs → w.call epoch = w.warmup_lr) ∧
    (w.warmup_epochs ≤ epoch → w.call epoch = w.lr) ∧
    WarmUpLRScheduler.call ⟨1/100, 1/10000, 10⟩ 5 = 1/100 ∧
    WarmUpLRScheduler.call ⟨1/100, 1/10000, 10⟩ 10 = 1/10000 := by
  refine ⟨fun h => ?_, fun h => ?_, ?_, ?_⟩
  · simp [WarmUpLRScheduler.call, h]
  · simp [WarmUpLRScheduler.call, not_lt.mpr h]
  · norm_num [WarmUpLRScheduler.call]
  · norm_num [WarmUpLRScheduler.call]

/-- Claim C7 witness: threshold instance at epoch 5 and epoch 10. -/
theorem warmup_scheduler_spec_witness :
    WarmUpLRScheduler.call ⟨1/100, 1/10000, 10⟩ 5 = 1/100 ∧
    WarmUpLRScheduler.call ⟨1/100, 1/10000, 10⟩ 10 = 1/10000 :=
  ⟨(warmup_scheduler_spec ⟨1/100, 1/10000, 10⟩ 5).2.2.1,
   (warmup_scheduler_spec ⟨1/100, 1/10000, 10⟩ 5).2.2.2⟩

/-- Claim C10: with positive `max_epoch`, the scheduler returns a value in
`[0, 1]` for every `epoch ≤ max_epoch` and `power ≥ 0`, but for
`epoch > max_epoch` and a non-integral `power` (for example the default 0.9)
the base is negative and `math.pow` raises a domain error (`none`). -/
theorem lr_scheduler_domain (m e : ℕ) (p : ℚ) (hm : 0 < m) :
    (e ≤ m → 0 ≤ p →
      ∃ r : ℝ, LearningRateScheduler.call ⟨m, p⟩ e = some r ∧ 0 ≤ r ∧ r ≤ 1) ∧
    (m < e → p.den ≠ 1 → LearningRateScheduler.call ⟨m, p⟩ e = none) := by
  constructor
  · intro he hp
    have hbase0 : (0 : ℚ) ≤ 1 - (e : ℚ) / (m : ℚ) := base_nonneg hm he
    have hbase1 : (1 - (e : ℚ) / (m : ℚ) : ℚ) ≤ 1 := by
      have hQm : (0 : ℚ) < (m : ℚ) := by exact_mod_cast hm
      have : (0 : ℚ) ≤ (e : ℚ) / (m : ℚ) := by positivity
      linarith
    refine ⟨Real.rpow ((1 - (e : ℚ) / (m : ℚ) : ℚ) : ℝ) ((p : ℚ) : ℝ), ?_, ?_, ?_⟩
    · rw [lr_call_pos m p e hm.ne', mathPow_nonneg_defined hbase0 hp]
    · exact Real.rpow_nonneg (by exact_mod_cast hbase0) _
    · exact Real.rpow_le_one (by exact_mod_cast hbase0) (by exact_mod_cast hbase1)
        (by exact_mod_cast hp)
  · intro he hden
    have hQm : (0 : ℚ) < (m : ℚ) := by exact_mod_cast hm
    have hbase : (1 - (e : ℚ) / (m : ℚ) : ℚ) < 0 := by
      have h1 : (1 : ℚ) < (e : ℚ) / (m : ℚ) := by
        rw [lt_div_iff₀ hQm, one_mul]; exact_mod_cast he
      linarith
    rw [lr_call_pos m p e hm.ne', mathPow, if_pos (Or.inl ⟨hbase, hden⟩)]

/-- Claim C10 witness: at `max_epoch = 10`, `power = 0.9` the value at
epoch 5 lies in `[0, 1]` and the call at epoch 12 raises a domain error. -/
theorem lr_scheduler_domain_witness :
    (∃ r : ℝ, LearningRateScheduler.call ⟨10, 9/10⟩ 5 = some r ∧ 0 ≤ r ∧ r ≤ 1) ∧
    LearningRateScheduler.call ⟨10, 9/10⟩ 12 = none :=
  ⟨(lr_scheduler_domain 10 5 (9/10) (by norm_num)).1 (by norm_num) (by norm_num),
   (lr_scheduler_domain 10 12 (9/10) (by norm_num)).2 (by norm_num) (by norm_num)⟩

/-- A file write performed by a callback; only the path is tracked, the pixel
or weight payload is produced by external libraries. -/
structure FileWrite where
  path : String

/-- `GenerateSegmentationImageCallback`: output directory and firing period
(the model, dataset, alpha and palette only feed the external drawing call). -/
structure GenerateSegmentationImageCallback where
  output_dir : String
  per_epoch : ℕ

/-- `GenerateSegmentationImageCallback.__call__(epoch)`: returns early when
`(epoch + 1) % per_epoch != 0`, else draws a predicted result for one random
dataset element and saves `{output_dir}/result_image{epoch + 1}.png`.  The
value is the list of file writes performed. -/
def GenerateSegmentationImageCallback.call (c : GenerateSegmentationImageCallback)
    (epoch : ℕ) : List FileWrite :=
  if (epoch + 1) % c.per_epoch ≠ 0 then []
  else [⟨c.output_dir ++ "/result_image" ++ toString (epoch + 1) ++ ".png"⟩]

/-- `ModelCheckout`: output directory, the wrapped model's class name (used in
the checkpoint file name) and firing period. -/
structure ModelCheckout where
  out_dir : String
  model_class_name : String
  per_epoch : ℕ

/-- `ModelCheckout.__call__(epoch)`: returns early when
`(epoch + 1) % per_epoch != 0`, else saves the model weights to
`{out_dir}/{ModelClass}_ep{epoch + 1}.pth`. -/
def ModelCheckout.call (c : ModelCheckout) (epoch : ℕ) : List FileWrite :=
  if (epoch + 1) % c.per_epoch ≠ 0 then []
  else [⟨c.out_dir ++ "/" ++ c.model_class_name ++ "_ep" ++ toString (epoch + 1) ++ ".pth"⟩]

/-- Claim C5: a callback with positive period writes no files when
`(epoch + 1) % per_epoch != 0` (it returns before any side effect), and
performs exactly one file write when `(epoch + 1) % per_epoch == 0`. -/
theorem callback_period_noop (d cls : String) (per epoch : ℕ) (_hper : 0 < per) :
    ((epoch + 1) % per ≠ 0 →
      GenerateSegmentationImageCallback.call ⟨d, per⟩ epoch = [] ∧
      ModelCheckout.call ⟨d, cls, per⟩ epoch = []) ∧
    ((epoch + 1) % per = 0 →
      (GenerateSegmentationImageCallback.call ⟨d, per⟩ epoch).length = 1 ∧
      (ModelCheckout.call ⟨d, cls, per⟩ epoch).length = 1) := by
  refine ⟨fun h => ⟨?_, ?_⟩, fun h => ⟨?_, ?_⟩⟩ <;>
    simp [GenerateSegmentationImageCallback.call, ModelCheckout.call, h]

/-- Claim C5 witness: with period 5, epoch 2 writes nothing and epoch 4
writes exactly one file, for both callback classes. -/
theorem callback_period_noop_witness :
    (GenerateSegmentationImageCallback.call ⟨"out", 5⟩ 2 = [] ∧
     ModelCheckout.call ⟨"out", "EfficientNet", 5⟩ 2 = []) ∧
    ((GenerateSegmentationImageCallback.call ⟨"out", 5⟩ 4).length = 1 ∧
     (ModelCheckout.call ⟨"out", "EfficientNet", 5⟩ 4).length = 1) :=
  ⟨(callback_period_noop "out" "EfficientNet" 5 2 (by decide)).1 (by decide),
   (callback_period_noop "out" "EfficientNet" 5 4 (by decide)).2 (by decide)⟩

/-- The state of an `EfficientNet` model adapter.  `P` is the (abstract) type
of the wrapped network's parameter state (`state_dict`), `O` the optimizer
state.  The architecture itself is determined by the `network` name, so two
adapters with equal fields behave identically. -/
structure EfficientNet (P O : Type) where
  num_classes : ℕ
  network : String
  state_dict : P
  optimizer : O

/-- The checkpoint blob written by `save_weight`: the dict
`{num_class, network, state_dict, optimizer}` serialized with `torch.save`. -/
structure Checkpoint (P O : Type) where
  num_class : ℕ
  network : String
  state_dict : P
  optimizer : O

/-- The file system as seen through `torch.save`/`torch.load`: a map from
paths to checkpoint blobs; `none` is an absent (or unreadable) file. -/
def FileStore (P O : Type) := String → Option (Checkpoint P O)

/-- `EfficientNet.save_weight(save_path)`: writes the four named fields to
`save_path`, overwriting any existing file there. -/
def EfficientNet.save_weight {P O : Type} (a : EfficientNet P O)
    (fs : FileStore P O) (save_path : String) : FileStore P O :=
  fun p => if p = save_path then
    some ⟨a.num_classes, a.network, a.state_dict, a.optimizer⟩ else fs p

/-- `EfficientNet.load_weight(weight_path)`: loads the checkpoint (failing,
as `torch.load` does, when the file is absent) and replaces `num_classes`,
the network parameter state, the optimizer state and the architecture name. -/
def EfficientNet.load_weight {P O : Type} (a : EfficientNet P O)
    (fs : FileStore P O) (weight_path : String) : Option (EfficientNet P O) :=
  (fs weight_path).map (fun params =>
    { a with
      num_classes := params.num_class
      state_dict := params.state_dict
      optimizer := params.optimizer
      network := params.network })

/-- Softmax over one row of logits (`nn.Softmax(dim=1)` applied row-wise). -/
noncomputable def softmaxRow (xs : List ℝ) : List ℝ :=
  xs.map (fun x => Real.exp x / (xs.map Real.exp).sum)

/-- `EfficientNet.predict(inputs)`: eval mode, no gradient tracking, softmax
over the class dimension of the network output.  The wrapped forward pass is
external; it is the parameter `net`, mapping the architecture name and the
parameter state to per-row logits.  The adapter is returned unchanged
alongside the output: the call mutates no parameters. -/
noncomputable def EfficientNet.predict {P O : Type}
    (net : String → P → List ℝ → List ℝ) (a : EfficientNet P O)
    (inputs : List (List ℝ)) : EfficientNet P O × List (List ℝ) :=
  (a, inputs.map (fun row => softmaxRow (net a.network a.state_dict row)))

/-- Claim C1: saving and then loading on a fresh adapter reproduces
`{num_class, network, state_dict, optimizer}` exactly, so `predict` agrees
with the original adapter on every input. -/
theorem save_load_roundtrip {P O : Type} (net : String → P → List ℝ → List ℝ)
    (orig fresh : EfficientNet P O) (fs : FileStore P O) (path : String) :
    ∃ loaded : EfficientNet P O,
      EfficientNet.load_weight fresh (EfficientNet.save_weight orig fs path) path
        = some loaded ∧
      loaded.num_classes = orig.num_classes ∧
      loaded.network = orig.network ∧
      loaded.state_dict = orig.state_dict ∧
      loaded.optimizer = orig.optimizer ∧
      ∀ inputs, EfficientNet.predict net loaded inputs
        = EfficientNet.predict net orig inputs := by
  refine ⟨orig, ?_, rfl, rfl, rfl, rfl, fun _ => rfl⟩
  simp [EfficientNet.load_weight, EfficientNet.save_weight]

lemma sum_map_div (l : List ℝ) (f : ℝ → ℝ) (c : ℝ) :
    (l.map (fun x => f x / c)).sum = (l.map f).sum / c := by
  induction l with
  | nil => simp
  | cons a t ih => simp [ih, add_div]

lemma sum_map_exp_nonneg (l : List ℝ) : 0 ≤ (l.map Real.exp).sum := by
  induction l with
  | nil => simp
  | cons a t ih => simpa using add_nonneg (Real.exp_nonneg a) ih

lemma sum_map_exp_pos (l : List ℝ) (h : l ≠ []) : 0 < (l.map Real.exp).sum := by
  cases l with
  | nil => exact absurd rfl h
  | cons a t =>
    simpa using add_pos_of_pos_of_nonneg (Real.exp_pos a) (sum_map_exp_nonneg t)

lemma softmaxRow_sum (xs : List ℝ) (h : xs ≠ []) : (softmaxRow xs).sum = 1 := by
  unfold softmaxRow
  rw [sum_map_div xs Real.exp ((xs.map Real.exp).sum)]
  exact div_self (sum_map_exp_pos xs h).ne'

/-- Claim C8: when the network emits `num_classes > 0` logits per row,
`predict` leaves the adapter state unchanged, returns one row per input
batch element, and every output row has `num_classes` entries summing
exactly to 1. -/
theorem predict_spec {P O : Type} (net : String → P → List ℝ → List ℝ)
    (a : EfficientNet P O) (inputs : List (List ℝ))
    (hlen : ∀ row, (net a.network a.state_dict row).length = a.num_classes)
    (hpos : 0 < a.num_classes) :
    (EfficientNet.predict net a inputs).1 = a ∧
    (EfficientNet.predict net a inputs).2.length = inputs.length ∧
    ∀ r ∈ (EfficientNet.predict net a inputs).2,
      r.length = a.num_classes ∧ r.sum = 1 := by
  refine ⟨rfl, by simp [EfficientNet.predict], ?_⟩
  intro r hr
  simp only [EfficientNet.predict, List.mem_map] at hr
  obtain ⟨row, _, rfl⟩ := hr
  have hne : net a.network a.state_dict row ≠ [] := by
    intro hnil
    have h0 : a.num_classes = 0 := by simpa [hnil] using (hlen row).symm
    exact hpos.ne' h0
  constructor
  · simp [softmaxRow, hlen row]
  · exact softmaxRow_sum _ hne

/-- Claim C8 witness: a 2-class network on a batch of 4 synthetic inputs. -/
theorem predict_spec_witness :
    (EfficientNet.predict (fun _ _ _ => [(0 : ℝ), 0])
      (⟨2, "efficientnet-b0", (), ()⟩ : EfficientNet Unit Unit)
      [[1], [2], [3], [4]]).1 = ⟨2, "efficientnet-b0", (), ()⟩ ∧
    (EfficientNet.predict (fun _ _ _ => [(0 : ℝ), 0])
      (⟨2, "efficientnet-b0", (), ()⟩ : EfficientNet Unit Unit)
      [[1], [2], [3], [4]]).2.length = 4 ∧
    ∀ r ∈ (EfficientNet.predict (fun _ _ _ => [(0 : ℝ), 0])
      (⟨2, "efficientnet-b0", (), ()⟩ : EfficientNet Unit Unit)
      [[1], [2], [3], [4]]).2, r.length = 2 ∧ r.sum = 1 :=
  predict_spec (fun _ _ _ => [0, 0]) ⟨2, "efficientnet-b0", (), ()⟩
    [[1], [2], [3], [4]] (fun _ => rfl) (by decide)

/-- Python's `statistics.mean`: raises `StatisticsError` (modelled as `none`)
on an empty sequence, else returns the exact arithmetic mean. -/
def pyMean (l : List ℚ) : Option ℚ :=
  if l.isEmpty then none else some (l.sum / (l.length : ℚ))

section Trainer

variable {σ β : Type}

/-- The loss-list loop of `XTrainer.train_epoch`: runs `train_batch` on each
batch of the loader in order, threading the mutable model state and
collecting the per-batch losses.  `train_batch` is the model contract: it
maps a model state and a batch to the updated state and the scalar loss. -/
def trainBatches (train_batch : σ → β → σ × ℚ) : σ → List β → σ × List ℚ
  | st, [] => (st, [])
  | st, b :: bs =>
    let r := train_batch st b
    let rest := trainBatches train_batch r.1 bs
    (rest.1, r.2 :: rest.2)

/-- `XTrainer.train_epoch`: one full pass over the loader followed by
`mean(loss_list)`; `none` models the uncaught `StatisticsError` raised on an
empty loader. -/
def train_epoch (train_batch : σ → β → σ × ℚ) (st : σ) (loader : List β) :
    Option (σ × ℚ) :=
  match pyMean (trainBatches train_batch st loader).2 with
  | none => none
  | some m => some ((trainBatches train_batch st loader).1, m)

lemma trainBatches_length (train_batch : σ → β → σ × ℚ) :
    ∀ (loader : List β) (st : σ),
      (trainBatches train_batch st loader).2.length = loader.length := by
  intro loader
  induction loader with
  | nil => intro st; rfl
  | cons b bs ih => intro st; simp [trainBatches, ih]

/-- Claim C2: `train_epoch` produces one loss per batch of the loader and
returns the arithmetic mean of the loss list; on a one-batch loader the
returned value is exactly that batch's loss. -/
theorem train_epoch_mean (train_batch : σ → β → σ × ℚ) (st : σ)
    (loader : List β) (h : loader ≠ []) :
    (trainBatches train_batch st loader).2.length = loader.length ∧
    train_epoch train_batch st loader
      = some ((trainBatches train_batch st loader).1,
          (trainBatches train_batch st loader).2.sum
            / ((trainBatches train_batch st loader).2.length : ℚ)) ∧
    ∀ b : β, train_epoch train_batch st [b]
      = some ((train_batch st b).1, (train_batch st b).2) := by
  refine ⟨trainBatches_length train_batch loader st, ?_, ?_⟩
  · have hne : ¬ (trainBatches train_batch st loader).2.isEmpty := by
      rw [List.isEmpty_iff_length_eq_zero, trainBatches_length]
      simpa using h
    simp [train_epoch, pyMean, hne]
  · intro b
    simp [train_epoch, trainBatches, pyMean]

/-- Claim C2 witness: a one-batch loader returns that batch's loss exactly. -/
theorem train_epoch_mean_witness :
    (trainBatches (fun (_ : Unit) (_ : Unit) => ((), (7 : ℚ))) () [()]).2.length = 1 ∧
    train_epoch (fun (_ : Unit) (_ : Unit) => ((), (7 : ℚ))) () [()]
      = some ((trainBatches (fun (_ : Unit) (_ : Unit) => ((), (7 : ℚ))) () [()]).1,
          (trainBatches (fun (_ : Unit) (_ : Unit) => ((), (7 : ℚ))) () [()]).2.sum
            / ((trainBatches (fun (_ : Unit) (_ : Unit) => ((), (7 : ℚ))) () [()]).2.length : ℚ)) ∧
    ∀ b : Unit, train_epoch (fun (_ : Unit) (_ : Unit) => ((), (7 : ℚ))) () [b]
      = some (((fun (_ : Unit) (_ : Unit) => ((), (7 : ℚ))) () b).1,
          ((fun (_ : Unit) (_ : Unit) => ((), (7 : ℚ))) () b).2) :=
  train_epoch_mean (fun _ _ => ((), 7)) () [()] (List.cons_ne_nil () [])

/-- One observable action of the trainer, tagged with the epoch in which the
source performs it. -/
inductive TrainEvent (β : Type) where
  | train_batch (epoch : ℕ) (batch : β)
  | metric_eval (epoch : ℕ) (metricIdx : ℕ)
  | callback_call (epoch : ℕ) (callbackIdx : ℕ)

/-- The epoch an event belongs to. -/
def TrainEvent.epochOf {β : Type} : TrainEvent β → ℕ
  | .train_batch e _ => e
  | .metric_eval e _ => e
  | .callback_call e _ => e

/-- `deepext.assemble.learning_table.LearningTable`: the immutable binding of
a data loader, an epoch budget and the registered callbacks (identified here
by registration index). -/
structure LearningTable (β : Type) where
  data_loader : List β
  epochs : ℕ
  num_callbacks : ℕ

/-- `XTrainer.calc_metric`: predict on each batch of the loader, apply the
metric function, return the mean of the results; `none` models the
`StatisticsError` on an empty loader.  `metricOf` abstracts
`metric_func(model.predict(x), teacher)` at the current model state. -/
def calc_metric (metricOf : σ → β → ℚ) (st : σ) (loader : List β) : Option ℚ :=
  pyMean (loader.map (metricOf st))

/-- The events of one iteration of the `train_one_model` epoch loop, in
program order: every `train_batch` call in loader order, then one
`calc_metric` per metric function, then every callback in registration
order. -/
def epochTrace (loader : List β) (numMetrics numCallbacks epoch : ℕ) :
    List (TrainEvent β) :=
  loader.map (TrainEvent.train_batch epoch)
    ++ (List.range numMetrics).map (TrainEvent.metric_eval epoch)
    ++ (List.range numCallbacks).map (TrainEvent.callback_call epoch)

/-- One iteration of the epoch loop of `XTrainer.train_one_model`:
`train_epoch`, then the metric loop, then the callback loop; `none` models an
exception escaping the iteration (empty training loader, or a metric
computed over an empty held-out loader). -/
def epochStep (train_batch : σ → β → σ × ℚ) (metricOf : σ → β → ℚ)
    (table : LearningTable β) (numMetrics : ℕ) (test_loader : List β)
    (st : σ) (epoch : ℕ) : Option (σ × List (TrainEvent β)) :=
  match train_epoch train_batch st table.data_loader with
  | none => none
  | some (st1, _) =>
    if 0 < numMetrics ∧ (calc_metric metricOf st1 test_loader).isNone then none
    else some (st1, epochTrace table.data_loader numMetrics table.num_callbacks epoch)

/-- The epoch loop `for epoch in range(table.epochs)`, strictly sequential:
iteration `e` completes (including its callbacks) before iteration `e + 1`
starts, and its trace is emitted before the next iteration's trace. -/
def runEpochs (train_batch : σ → β → σ × ℚ) (metricOf : σ → β → ℚ)
    (table : LearningTable β) (numMetrics : ℕ) (test_loader : List β) :
    ℕ → ℕ → σ → Option (σ × List (TrainEvent β))
  | 0, _, st => some (st, [])
  | n + 1, e, st =>
    match epochStep train_batch metricOf table numMetrics test_loader st e with
    | none => none
    | some (st1, tr) =>
      match runEpochs train_batch metricOf table numMetrics test_loader n (e + 1) st1 with
      | none => none
      | some (st2, rest) => some (st2, tr ++ rest)

/-- `XTrainer.train_one_model`: runs the epoch loop from epoch 0. -/
def train_one_model (train_batch : σ → β → σ × ℚ) (metricOf : σ → β → ℚ)
    (table : LearningTable β) (numMetrics : ℕ) (test_loader : List β)
    (st : σ) : Option (σ × List (TrainEvent β)) :=
  runEpochs train_batch metricOf table numMetrics test_loader table.epochs 0 st

/-- Claim C3: on a loader yielding zero batches `train_epoch` raises (returns
no numeric value), and the failure propagates through `train_one_model`
uncaught. -/
theorem train_epoch_empty_fails (train_batch : σ → β → σ × ℚ)
    (metricOf : σ → β → ℚ) (st : σ) (numMetrics : ℕ) (test_loader : List β)
    (epochs numCb : ℕ) (hep : 0 < epochs) :
    train_epoch train_batch st ([] : List β) = none ∧
    train_one_model train_batch metricOf ⟨[], epochs, numCb⟩ numMetrics
      test_loader st = none := by
  refine ⟨rfl, ?_⟩
  cases epochs with
  | zero => exact absurd hep (by simp)
  | succ n =>
    simp [train_one_model, runEpochs, epochStep, train_epoch, trainBatches, pyMean]

/-- Claim C3 witness: a one-epoch learning table bound to an empty loader. -/
theorem train_epoch_empty_fails_witness :
    train_epoch (fun (_ : Unit) (_ : Unit) => ((), (0 : ℚ))) () ([] : List Unit) = none ∧
    train_one_model (fun (_ : Unit) (_ : Unit) => ((), (0 : ℚ))) (fun _ _ => 0)
      ⟨[], 1, 0⟩ 0 [] () = none :=
  train_epoch_empty_fails (fun _ _ => ((), 0)) (fun _ _ => 0) () 0 [] 1 0 (by decide)

/-- The errors `XTrainer.fit` can propagate: the length assertion at entry,
or a `StatisticsError` from a mean over an empty sequence. -/
inductive FitError where
  | assertionError
  | statisticsError

/-- The per-model loop of `XTrainer.fit`: pairs model `i` with learning table
`i` and trains it; events are tagged with the model index. -/
def fitLoop (train_batch : σ → β → σ × ℚ) (metricOf : σ → β → ℚ)
    (numMetrics : ℕ) (test_loader : List β) :
    List σ → List (LearningTable β) → ℕ →
    Option (List σ × List (ℕ × TrainEvent β))
  | [], _, _ => some ([], [])
  | _ :: _, [], _ => none
  | m :: ms, t :: ts, i =>
    match train_one_model train_batch metricOf t numMetrics test_loader m with
    | none => none
    | some (m1, tr) =>
      match fitLoop train_batch metricOf numMetrics test_loader ms ts (i + 1) with
      | none => none
      | some (ms1, rest) => some (m1 :: ms1, tr.map (fun ev => (i, ev)) ++ rest)

/-- `XTrainer.fit`: asserts that the learning-table count equals the model
count, trains each model in index order, then computes every total metric
over the assemble model.  `.error .assertionError` models the
`AssertionError`: it carries no trace and no states because nothing has
run. -/
def fit (train_batch : σ → β → σ × ℚ) (metricOf : σ → β → ℚ)
    (models : List σ) (tables : List (LearningTable β)) (numMetrics : ℕ)
    (test_loader : List β) :
    Except FitError (List σ × List (ℕ × TrainEvent β)) :=
  if tables.length ≠ models.length then .error .assertionError
  else
    match fitLoop train_batch metricOf numMetrics test_loader models tables 0 with
    | none => .error .statisticsError
    | some (ms, tr) =>
      if 0 < numMetrics ∧ test_loader.isEmpty then .error .statisticsError
      else .ok (ms, tr)

/-- Claim C4: with mismatched table/model counts, `fit` fails with the
assertion error immediately — the result carries no training events and no
updated model states — and the assertion error can arise in no other way. -/
theorem fit_mismatch_asserts (train_batch : σ → β → σ × ℚ)
    (metricOf : σ → β → ℚ) (models : List σ) (tables : List (LearningTable β))
    (numMetrics : ℕ) (test_loader : List β)
    (h : tables.length ≠ models.length) :
    fit train_batch metricOf models tables numMetrics test_loader
      = Except.error FitError.assertionError ∧
    ∀ models' : List σ, ∀ tables' : List (LearningTable β),
      tables'.length = models'.length →
      fit train_batch metricOf models' tables' numMetrics test_loader
        ≠ Except.error FitError.assertionError := by
  refine ⟨by simp [fit, h], ?_⟩
  intro models' tables' hlen
  simp only [fit, hlen, ne_eq, not_true_eq_false, if_false]
  split
  · simp
  · split <;> simp

/-- Claim C4 witness: two models against a single learning table. -/
theorem fit_mismatch_asserts_witness :
    fit (fun (_ : Unit) (_ : Unit) => ((), (0 : ℚ))) (fun _ _ => 0)
      [(), ()] [(⟨[], 1, 0⟩ : LearningTable Unit)] 0 []
      = Except.error FitError.assertionError :=
  (fit_mismatch_asserts (fun _ _ => ((), 0)) (fun _ _ => 0) [(), ()]
    [⟨[], 1, 0⟩] 0 [] (by decide)).1

/-- The concatenated trace of `count` consecutive epochs starting at epoch
`start`. -/
def epochsTrace (loader : List β) (numMetrics numCallbacks : ℕ) :
    ℕ → ℕ → List (TrainEvent β)
  | 0, _ => []
  | n + 1, e =>
    epochTrace loader numMetrics numCallbacks e
      ++ epochsTrace loader numMetrics numCallbacks n (e + 1)

lemma mem_epochTrace_epochOf {a : TrainEvent β} {l : List β} {nm nc e : ℕ}
    (h : a ∈ epochTrace l nm nc e) : a.epochOf = e := by
  simp only [epochTrace, List.mem_append, List.mem_map] at h
  rcases h with (⟨b, _, rfl⟩ | ⟨i, _, rfl⟩) | ⟨i, _, rfl⟩ <;> rfl

lemma mem_epochsTrace_le {a : TrainEvent β} {l : List β} {nm nc : ℕ} :
    ∀ {n s : ℕ}, a ∈ epochsTrace l nm nc n s → s ≤ a.epochOf := by
  intro n
  induction n with
  | zero => intro s h; exact absurd h (by simp [epochsTrace])
  | succ k ih =>
    intro s h
    rcases List.mem_append.mp h with h1 | h2
    · exact le_of_eq (mem_epochTrace_epochOf h1).symm
    · exact le_trans (Nat.le_succ s) (ih h2)

lemma epochsTrace_pairwise (l : List β) (nm nc : ℕ) :
    ∀ (n s : ℕ), (epochsTrace l nm nc n s).Pairwise
      (fun a b => a.epochOf ≤ b.epochOf) := by
  intro n
  induction n with
  | zero => intro s; simp [epochsTrace]
  | succ k ih =>
    intro s
    refine List.pairwise_append.mpr ⟨?_, ih (s + 1), ?_⟩
    · exact List.pairwise_of_forall_mem_list (fun a ha b hb => by
        rw [mem_epochTrace_epochOf ha, mem_epochTrace_epochOf hb])
    · intro a ha b hb
      rw [mem_epochTrace_epochOf ha]
      exact le_trans (Nat.le_succ s) (mem_epochsTrace_le hb)

lemma train_epoch_nonempty_some (train_batch : σ → β → σ × ℚ) (st : σ)
    (loader : List β) (h : loader ≠ []) :
    train_epoch train_batch st loader
      = some ((trainBatches train_batch st loader).1,
          (trainBatches train_batch st loader).2.sum
            / ((trainBatches train_batch st loader).2.length : ℚ)) :=
  (train_epoch_mean train_batch st loader h).2.1

lemma runEpochs_nonempty (train_batch : σ → β → σ × ℚ) (metricOf : σ → β → ℚ)
    (table : LearningTable β) (numMetrics : ℕ) (test_loader : List β)
    (h1 : table.data_loader ≠ []) (h2 : 0 < numMetrics → test_loader ≠ []) :
    ∀ (n s : ℕ) (st : σ), ∃ st' : σ,
      runEpochs train_batch metricOf table numMetrics test_loader n s st
        = some (st', epochsTrace table.data_loader numMetrics table.num_callbacks n s) := by
  intro n
  induction n with
  | zero => intro s st; exact ⟨st, rfl⟩
  | succ k ih =>
    intro s st
    have hstep : epochStep train_batch metricOf table numMetrics test_loader st s
        = some ((trainBatches train_batch st table.data_loader).1,
            epochTrace table.data_loader numMetrics table.num_callbacks s) := by
      rw [epochStep, train_epoch_nonempty_some train_batch st table.data_loader h1]
      have hcond : ¬ (0 < numMetrics ∧
          (calc_metric metricOf (trainBatches train_batch st table.data_loader).1
            test_loader).isNone) := by
        rintro ⟨hnm, hnone⟩
        have := h2 hnm
        simp [calc_metric, pyMean, List.isEmpty_iff, this] at hnone
      exact if_neg hcond
    obtain ⟨st', hrec⟩ := ih (s + 1) (trainBatches train_batch st table.data_loader).1
    refine ⟨st', ?_⟩
    rw [runEpochs]
    simp only [hstep, hrec]
    rfl

/-- Claim C9: with a nonempty training loader (and a nonempty held-out loader
whenever metrics are requested), `train_one_model` runs its epochs strictly
sequentially: its event trace is the concatenation, epoch by epoch, of the
batch events in loader order, then the metric evaluations, then the callbacks
in registration order; consequently the epoch tags along the trace are
monotone — no event of a later epoch precedes one of an earlier epoch. -/
theorem train_one_model_sequential (train_batch : σ → β → σ × ℚ)
    (metricOf : σ → β → ℚ) (table : LearningTable β) (numMetrics : ℕ)
    (test_loader : List β) (st : σ)
    (h1 : table.data_loader ≠ []) (h2 : 0 < numMetrics → test_loader ≠ []) :
    (∃ st' : σ,
      train_one_model train_batch metricOf table numMetrics test_loader st
        = some (st', epochsTrace table.data_loader numMetrics
            table.num_callbacks table.epochs 0)) ∧
    (epochsTrace table.data_loader numMetrics table.num_callbacks
        table.epochs 0).Pairwise (fun a b => a.epochOf ≤ b.epochOf) ∧
    ∀ e : ℕ, epochTrace table.data_loader numMetrics table.num_callbacks e
      = table.data_loader.map (TrainEvent.train_batch e)
        ++ (List.range numMetrics).map (TrainEvent.metric_eval e)
        ++ (List.range table.num_callbacks).map (TrainEvent.callback_call e) :=
  ⟨runEpochs_nonempty train_batch metricOf table numMetrics test_loader h1 h2
      table.epochs 0 st,
   epochsTrace_pairwise table.data_loader numMetrics table.num_callbacks
      table.epochs 0,
   fun _ => rfl⟩

/-- Claim C9 witness: two epochs over a one-batch loader with one metric and
two callbacks. -/
theorem train_one_model_sequential_witness :
    (∃ st' : ℚ,
      train_one_model (fun (s : ℚ) (b : ℚ) => (s + b, b)) (fun _ _ => 0)
        (⟨[7], 2, 2⟩ : LearningTable ℚ) 1 [5] 0
        = some (st', epochsTrace [7] 1 2 2 0)) ∧
    (epochsTrace ([7] : List ℚ) 1 2 2 0).Pairwise
      (fun a b => a.epochOf ≤ b.epochOf) ∧
    ∀ e : ℕ, epochTrace ([7] : List ℚ) 1 2 e
      = ([7] : List ℚ).map (TrainEvent.train_batch e)
        ++ (List.range 1).map (TrainEvent.metric_eval e)
        ++ (List.range 2).map (TrainEvent.callback_call e) :=
  train_one_model_sequential (fun s b => (s + b, b)) (fun _ _ => 0)
    ⟨[7], 2, 2⟩ 1 [5] 0 (List.cons_ne_nil 7 [])
    (fun _ => List.cons_ne_nil 5 [])

end Trainer

end Deepext
